import Mathlib

set_option maxRecDepth 4000

/-!
# Verification of the go-interstellar CosmosDB client core

A shallow embedding, in Lean 4, of the request-signing, request-building,
response-metadata extraction, error-classification and pagination code of the
`jet/go-interstellar` repository, together with theorems settling the frozen
claims about that code.

Modelling conventions, used throughout:

* Go byte slices (`[]byte`) are `List Nat` with every element `< 256`; a Go
  `nil` slice versus a non-nil slice is `Option (List Nat)` where it matters
  (the `MasterKey`).
* Go `io.Reader` bodies are modelled by the immutable byte string they yield;
  `GetBody` closures (which in Go may be stateful and answer differently on
  each call) are modelled as functions of the invocation index
  `Nat → Except String String`.
* `net/http` header maps are association lists with `Set`/`Get` helpers.  Go
  canonicalises MIME header keys on both `Set` and `Get`; since every access
  in the repository goes through the same header-name constants, plain string
  keys are observationally equivalent and canonicalisation is not modelled.
* `time.Now()` is a nondeterministic input and is passed in as an explicit
  RFC1123 date-string parameter (one per issued request for the paginator).
* `encoding/json` byte-level decoding is not re-implemented: a response body
  carries both its raw bytes and the decoder's verdict on them (an
  `Except String JValue` oracle).  The repository's own parsing code
  (`ParseObjectResponse` / `ParseArrayResponse` / `ParseArrayFromResponse`)
  is translated faithfully at the level of decoded JSON values.
* SHA-256, HMAC-SHA256, standard base64 and Go's `url.QueryEscape` are
  implemented concretely below, so signatures are computed for real.
-/

/-! ## Bytes and UTF-8 -/

/-- UTF-8 encoding of one character, as a list of byte values (standard
four-range encoder, mirroring what Go gets by casting a `string` to
`[]byte`). -/
def utf8EncodeChar (c : Char) : List Nat :=
  let n := c.toNat
  if n < 0x80 then [n]
  else if n < 0x800 then [0xC0 + n / 64, 0x80 + n % 64]
  else if n < 0x10000 then [0xE0 + n / 4096, 0x80 + (n / 64) % 64, 0x80 + n % 64]
  else [0xF0 + n / 262144, 0x80 + (n / 4096) % 64, 0x80 + (n / 64) % 64, 0x80 + n % 64]

/-- The UTF-8 bytes of a string (Go `[]byte(s)`). -/
def strBytes (s : String) : List Nat :=
  (s.data.map utf8EncodeChar).flatten

/-! ## SHA-256 -/

/-- Addition modulo 2^32. -/
def add32 (a b : Nat) : Nat := (a + b) % 4294967296

/-- Right-rotation of a 32-bit word by `n` places. -/
def rotr32 (n x : Nat) : Nat :=
  ((x >>> n) ||| (x <<< (32 - n))) % 4294967296

/-- Bitwise complement within 32 bits (inputs are `< 2^32`). -/
def not32 (x : Nat) : Nat := 4294967295 - x

def sha256SmallSigma0 (x : Nat) : Nat := rotr32 7 x ^^^ rotr32 18 x ^^^ (x >>> 3)

def sha256SmallSigma1 (x : Nat) : Nat := rotr32 17 x ^^^ rotr32 19 x ^^^ (x >>> 10)

def sha256BigSigma0 (x : Nat) : Nat := rotr32 2 x ^^^ rotr32 13 x ^^^ rotr32 22 x

def sha256BigSigma1 (x : Nat) : Nat := rotr32 6 x ^^^ rotr32 11 x ^^^ rotr32 25 x

def sha256Ch (x y z : Nat) : Nat := (x &&& y) ^^^ (not32 x &&& z)

def sha256Maj (x y z : Nat) : Nat := (x &&& y) ^^^ (x &&& z) ^^^ (y &&& z)

/-- The 64 SHA-256 round constants. -/
def sha256K : List Nat :=
  [1116352408, 1899447441, 3049323471, 3921009573, 961987163,
   1508970993, 2453635748, 2870763221, 3624381080, 310598401,
   607225278, 1426881987, 1925078388, 2162078206, 2614888103,
   3248222580, 3835390401, 4022224774, 264347078, 604807628,
   770255983, 1249150122, 1555081692, 1996064986, 2554220882,
   2821834349, 2952996808, 3210313671, 3336571891, 3584528711,
   113926993, 338241895, 666307205, 773529912, 1294757372,
   1396182291, 1695183700, 1986661051, 2177026350, 2456956037,
   2730485921, 2820302411, 3259730800, 3345764771, 3516065817,
   3600352804, 4094571909, 275423344, 430227734, 506948616,
   659060556, 883997877, 958139571, 1322822218, 1537002063,
   1747873779, 1955562222, 2024104815, 2227730452, 2361852424,
   2428436474, 2756734187, 3204031479, 3329325298]

/-- Big-endian 8-byte encoding of a natural number. -/
def be64 (n : Nat) : List Nat :=
  [(n >>> 56) % 256, (n >>> 48) % 256, (n >>> 40) % 256, (n >>> 32) % 256,
   (n >>> 24) % 256, (n >>> 16) % 256, (n >>> 8) % 256, n % 256]

/-- Big-endian 4-byte encoding of a 32-bit word. -/
def be32 (n : Nat) : List Nat :=
  [(n >>> 24) % 256, (n >>> 16) % 256, (n >>> 8) % 256, n % 256]

/-- SHA-256 padding: append `0x80`, zero bytes up to 56 mod 64, then the
64-bit big-endian bit length. -/
def sha256Pad (msg : List Nat) : List Nat :=
  let l := msg.length
  let zeros := (64 + 55 - l % 64) % 64
  msg ++ [0x80] ++ List.replicate zeros 0 ++ be64 (8 * l)

/-- Combine bytes into big-endian 32-bit words. -/
def bytesToWords : List Nat → List Nat
  | a :: b :: c :: d :: rest => (a <<< 24 ||| b <<< 16 ||| c <<< 8 ||| d) :: bytesToWords rest
  | _ => []

/-- Split a word list into chunks of 16 (fuelled; called with enough fuel). -/
def chunks16 : Nat → List Nat → List (List Nat)
  | 0, _ => []
  | _, [] => []
  | fuel + 1, l => l.take 16 :: chunks16 fuel (l.drop 16)

/-- Extend the 16-word message schedule by `n` further words. -/
def sha256Extend (ws : List Nat) : Nat → List Nat
  | 0 => ws
  | n + 1 =>
    let j := ws.length
    let w := add32 (add32 (sha256SmallSigma1 (ws.getD (j - 2) 0)) (ws.getD (j - 7) 0))
      (add32 (sha256SmallSigma0 (ws.getD (j - 15) 0)) (ws.getD (j - 16) 0))
    sha256Extend (ws ++ [w]) n

/-- The eight-word SHA-256 working state. -/
structure Sha256State where
  a : Nat
  b : Nat
  c : Nat
  d : Nat
  e : Nat
  f : Nat
  g : Nat
  h : Nat

/-- Initial SHA-256 hash state. -/
def sha256Init : Sha256State :=
  ⟨1779033703, 3144134277, 1013904242, 2773480762,
   1359893119, 2600822924, 528734635, 1541459225⟩

/-- One SHA-256 compression round. -/
def sha256Round (s : Sha256State) (k w : Nat) : Sha256State :=
  let t1 := add32 s.h (add32 (sha256BigSigma1 s.e) (add32 (sha256Ch s.e s.f s.g) (add32 k w)))
  let t2 := add32 (sha256BigSigma0 s.a) (sha256Maj s.a s.b s.c)
  ⟨add32 t1 t2, s.a, s.b, s.c, add32 s.d t1, s.e, s.f, s.g⟩

/-- Process one 16-word block. -/
def sha256Block (s : Sha256State) (block : List Nat) : Sha256State :=
  let ws := sha256Extend block 48
  let t := (sha256K.zip ws).foldl (fun st kw => sha256Round st kw.1 kw.2) s
  ⟨add32 s.a t.a, add32 s.b t.b, add32 s.c t.c, add32 s.d t.d,
   add32 s.e t.e, add32 s.f t.f, add32 s.g t.g, add32 s.h t.h⟩

/-- SHA-256 of a byte string. -/
def sha256 (msg : List Nat) : List Nat :=
  let padded := sha256Pad msg
  let words := bytesToWords padded
  let blocks := chunks16 words.length words
  let s := blocks.foldl sha256Block sha256Init
  be32 s.a ++ be32 s.b ++ be32 s.c ++ be32 s.d ++ be32 s.e ++ be32 s.f ++ be32 s.g ++ be32 s.h

/-- HMAC-SHA256 (Go `crypto/hmac` with `sha256.New`, block size 64). -/
def hmacSha256 (key msg : List Nat) : List Nat :=
  let k1 := if 64 < key.length then sha256 key else key
  let k2 := k1 ++ List.replicate (64 - k1.length) 0
  let ipad := k2.map (fun b => b ^^^ 0x36)
  let opad := k2.map (fun b => b ^^^ 0x5c)
  sha256 (opad ++ sha256 (ipad ++ msg))

/-! ## Base64 (standard alphabet, with padding) and `url.QueryEscape` -/

/-- The standard base64 alphabet. -/
def base64Alphabet : List Char :=
  "ABCDEFGHIJKLMNOPQRSTUVWXYZabcdefghijklmnopqrstuvwxyz0123456789+/".data

def base64Char (n : Nat) : Char := base64Alphabet.getD n 'A'

/-- Characters of the standard (padded) base64 encoding of a byte string,
as produced by Go `base64.StdEncoding.EncodeToString`. -/
def base64Chars : List Nat → List Char
  | a :: b :: c :: rest =>
    base64Char (a >>> 2) :: base64Char ((a % 4) <<< 4 ||| b >>> 4) ::
    base64Char ((b % 16) <<< 2 ||| c >>> 6) :: base64Char (c % 64) :: base64Chars rest
  | [a, b] =>
    [base64Char (a >>> 2), base64Char ((a % 4) <<< 4 ||| b >>> 4),
     base64Char ((b % 16) <<< 2), '=']
  | [a] => [base64Char (a >>> 2), base64Char ((a % 4) <<< 4), '=', '=']
  | [] => []

def base64Encode (bs : List Nat) : String := String.mk (base64Chars bs)

/-- Bytes Go `url.QueryEscape` leaves unescaped: ASCII alphanumerics and
`-`, `_`, `.`, `~`. -/
def queryUnreserved (b : Nat) : Bool :=
  (0x41 ≤ b && b ≤ 0x5A) || (0x61 ≤ b && b ≤ 0x7A) || (0x30 ≤ b && b ≤ 0x39) ||
  b == 0x2D || b == 0x5F || b == 0x2E || b == 0x7E

def hexUpperDigit (n : Nat) : Char := "0123456789ABCDEF".data.getD n '0'

/-- Go `url.QueryEscape`: percent-escape every byte of the UTF-8 encoding
except unreserved ones, encoding a space as `+`. -/
def queryEscape (s : String) : String :=
  String.mk (((strBytes s).map (fun b =>
    if queryUnreserved b then [Char.ofNat b]
    else if b == 0x20 then ['+']
    else ['%', hexUpperDigit (b / 16), hexUpperDigit (b % 16)])).flatten)

/-! ## Small Go string helpers -/

/-- `strings.ToLower`, restricted to ASCII (every string the client lower-cases
— HTTP methods, resource-type names, RFC1123 dates — is ASCII). -/
def goToLower (s : String) : String := String.mk (s.data.map Char.toLower)

/-- `strings.ToUpper`, restricted to ASCII. -/
def goToUpper (s : String) : String := String.mk (s.data.map Char.toUpper)

/-- `strings.Join` (Go semantics: separator between elements). -/
def goJoin (sep : String) : List String → String
  | [] => ""
  | [x] => x
  | x :: xs => x ++ sep ++ goJoin sep xs

/-- `strings.TrimSuffix`: drop `suf` from the end of `s` if present
(character-list implementation, equivalent on the ASCII endpoint/path
strings involved). -/
def goTrimSuffix (s suf : String) : String :=
  if suf.data.isSuffixOf s.data then String.mk (s.data.take (s.data.length - suf.data.length))
  else s

/-- `strings.TrimPrefix`: drop `pre` from the front of `s` if present. -/
def goTrimPrefix (s pre : String) : String :=
  if pre.data.isPrefixOf s.data then String.mk (s.data.drop pre.data.length) else s

-- Sanity checks of the crypto stack against published test vectors.
example : base64Encode (sha256 []) = "47DEQpj8HBSa+/TImW+5JCeuQeRkm5NMpJWZG3hSuFU=" := by decide
example : base64Encode (hmacSha256 (strBytes "testkey") (strBytes "hello")) =
    "SidpMYOyjSYWIJ1v9ed2Rq9fwG6mr/rDdBWZWwe+Ld8=" := by decide

/-! ## Headers and requests (`net/http` fragment) -/

/-- A header map, as an association list.  `headerSet` mirrors
`http.Header.Set` (replace all previous values for the key); `headerGet`
mirrors `http.Header.Get` (first value, or `""`). -/
abbrev Headers := List (String × String)

def headerSet (h : Headers) (k v : String) : Headers :=
  (k, v) :: h.filter (fun p => p.1 != k)

def headerGet (h : Headers) (k : String) : String :=
  match h.find? (fun p => p.1 == k) with
  | some p => p.2
  | none => ""

/-- An outgoing `*http.Request`, restricted to the parts the client touches:
method, assembled URL, headers, body bytes and the `GetBody` replay accessor
(a function of the invocation index — see the module comment). -/
structure HRequest where
  method : String
  url : String := ""
  headers : Headers := []
  body : Option String := none
  getBody : Option (Nat → Except String String) := none

/-! ## Constants (`package.go`, `client.go`, `client_requests.go`, part_000) -/

def TokenVersion : String := "1.0"

def MasterTokenAuthType : String := "master"

def APIVersion : String := "2017-02-22"

def DefaultUserAgent : String := "Go-Interstellar/0.1"

def HeaderMSDate : String := "x-ms-date"

def HeaderAuthorization : String := "Authorization"

def HeaderMSAPIVersion : String := "x-ms-version"

def HeaderUserAgent : String := "User-Agent"

def HeaderContentType : String := "Content-Type"

def HeaderContinuation : String := "x-ms-continuation"

def HeaderSessionToken : String := "x-ms-session-token"

def HeaderDate : String := "Date"

def HeaderETag : String := "ETag"

def HeaderActivityID : String := "x-ms-activity-id"

def HeaderAltContentPath : String := "x-ms-alt-content-path"

def HeaderItemCount : String := "x-ms-item-count"

def HeaderRequestCharge : String := "x-ms-request-charge"

def HeaderResourceQuota : String := "x-ms-resource-quota"

def HeaderResourceUsage : String := "x-ms-resource-usage"

def HeaderRetryAfterMS : String := "x-ms-retry-after-ms"

def HeaderSchemaVersion : String := "x-ms-schemaversion"

def HeaderServiceVersion : String := "x-ms-serviceversion"

def HeaderDocDBIsQuery : String := "x-ms-documentdb-isquery"

def ContentTypeQueryJSON : String := "application/query+json"

/-! ## MasterKey signing (`part_000`: `MasterKey.Sign`, `MasterKey.Authorize`) -/

/-- `MasterKey` is a Go `[]byte`; `none` is a nil slice, `some bs` a non-nil
slice (`some []` is the empty, non-nil key). -/
def MasterKey : Type := Option (List Nat)

/-- `ResourceType.String()`: lower-case the resource-type name. -/
def resourceTypeString (rt : String) : String := goToLower rt

/-- `MasterKey.Sign`: HMAC-SHA256 over the UTF-8 bytes of the message, keyed
by the raw key bytes, base64-encoded. -/
def MasterKey.Sign (k : List Nat) (message : String) : String :=
  base64Encode (hmacSha256 k (strBytes message))

/-- `MasterKey.Authorize`.  The Go receiver checks `k == nil` (nil slice) and
passes the request through; otherwise it computes the signature over the
joined string, sets `Authorization`, sets `x-ms-version` only when absent,
and sets `x-ms-date` to the very date string that was signed.  `date` stands
for `time.Now().UTC().Format(http.TimeFormat)`. -/
def MasterKey.Authorize (k : MasterKey) (r : HRequest) (resourceType resourceLink : String)
    (date : String) : HRequest :=
  match k with
  | none => r
  | some kb =>
    let cs := goJoin "\n"
      [goToLower r.method, resourceTypeString resourceType, resourceLink, goToLower date, "", ""]
    let sig := MasterKey.Sign kb cs
    let token := queryEscape ("type=" ++ MasterTokenAuthType ++ "&ver=" ++ TokenVersion ++ "&sig=" ++ sig)
    let r1 := { r with headers := headerSet r.headers HeaderAuthorization token }
    let r2 :=
      if headerGet r1.headers HeaderMSAPIVersion == "" then
        { r1 with headers := headerSet r1.headers HeaderMSAPIVersion APIVersion }
      else r1
    { r2 with headers := headerSet r2.headers HeaderMSDate date }

/-! ## JSON values and response parsing (`part_002`) -/

/-- Decoded JSON values (the image of `encoding/json` decoding). -/
inductive JValue where
  | null
  | bool (b : Bool)
  | num (n : Int)
  | str (s : String)
  | arr (xs : List JValue)
  | obj (fields : List (String × JValue))
  deriving BEq

/-- First-occurrence lookup in a decoded object (a Go decoded
`map[string]json.RawMessage`; decoded objects have unique keys). -/
def jLookup (fields : List (String × JValue)) (key : String) : Option JValue :=
  match fields.find? (fun p => p.1 == key) with
  | some p => some p.2
  | none => none

/-- The error taxonomy (`Error` constants, `errors.Errorf` wrappers and
`rest.NewErrorHTTPResponse`), plus transport and body-read failures. -/
inductive IError where
  | preconditionFailed
  | notFound
  | notModified
  | keyNotFound
  | decode (msg : String)
  | httpError (status : Nat) (body : String)
  | transport (msg : String)
  | invalidMethod (msg : String)
  | readBody (msg : String)
  | consumer (msg : String)
  deriving BEq, DecidableEq

/-- `ParseObjectResponse`: decode into `map[string]json.RawMessage`.  JSON
`null` decodes into a nil map without error; any non-object (other than null)
is a decode error. -/
def ParseObjectResponse (b : Except String JValue) : Except IError (List (String × JValue)) :=
  match b with
  | .error e => .error (.decode e)
  | .ok v =>
    match v with
    | .obj fields => .ok fields
    | .null => .ok []
    | _ => .error (.decode "interstellar: could not decode json into map")

/-- `ParseArrayResponse` applied to an already-decoded raw message: decode
into `[]json.RawMessage` (JSON `null` gives a nil slice without error). -/
def ParseArrayResponse (v : JValue) : Except IError (List JValue) :=
  match v with
  | .arr xs => .ok xs
  | .null => .ok []
  | _ => .error (.decode "interstellar: could not decode json into slice")

/-- `ParseArrayFromResponse`: object decode, key lookup (missing key is
`ErrKeyNotFound`), then array decode of the raw value at the key. -/
def ParseArrayFromResponse (b : Except String JValue) (key : String) :
    Except IError (List JValue) :=
  match ParseObjectResponse b with
  | .error e => .error e
  | .ok obj =>
    match jLookup obj key with
    | none => .error .keyNotFound
    | some rawlist => ParseArrayResponse rawlist

/-! ## Responses and response metadata (`client_requests.go`) -/

/-- An incoming `*http.Response`, restricted to what the client reads.
`bodyJson` is the `encoding/json` decoding oracle for `bodyRaw` (see the
module comment). -/
structure HResponse where
  status : Nat
  headers : Headers := []
  bodyRaw : String := ""
  bodyJson : Except String JValue := .error "invalid json"

/-- `ResponseMetadata`.  `date` abstracts the `time.Time` field by the raw
RFC1123 header text (set when the header is non-empty; `time.Parse` failures
are not modelled — no claim depends on the field).  `retryAfterMS` and
`itemCount` keep their numeric types. -/
structure ResponseMetadata where
  date : String := ""
  etag : String := ""
  activityID : String := ""
  altContentPath : String := ""
  continuation : String := ""
  requestCharge : String := ""
  resourceQuota : String := ""
  retryAfterMS : Int := 0
  itemCount : Int := 0
  resourceUsage : String := ""
  schemaVersion : String := ""
  serviceVersion : String := ""
  sessionToken : String := ""
  deriving BEq

/-- `GetResponseMetadata`: copy the known response headers into the struct.
The Go nil-response / nil-header early return coincides with running the
extractor on an empty header list.  `x-ms-retry-after-ms` is declared
(`HeaderRetryAfterMS`) but never read here — exactly as in the source. -/
def GetResponseMetadata (resp : HResponse) : ResponseMetadata :=
  let hdr := resp.headers
  { date := (let dhdr := headerGet hdr HeaderDate; if dhdr != "" then dhdr else ""),
    etag := headerGet hdr HeaderETag,
    activityID := headerGet hdr HeaderActivityID,
    altContentPath := headerGet hdr HeaderAltContentPath,
    continuation := headerGet hdr HeaderContinuation,
    requestCharge := headerGet hdr HeaderRequestCharge,
    resourceQuota := headerGet hdr HeaderResourceQuota,
    resourceUsage := headerGet hdr HeaderResourceUsage,
    schemaVersion := headerGet hdr HeaderSchemaVersion,
    serviceVersion := headerGet hdr HeaderServiceVersion,
    sessionToken := headerGet hdr HeaderSessionToken,
    itemCount :=
      (let hv := headerGet hdr HeaderItemCount
       if hv != "" then (match hv.toInt? with | some i => i | none => 0) else 0) }

/-! ## ClientRequest and request building (`client_requests.go`) -/

/-- `ClientRequest`.  `options` models `RequestOptions` as a header
transformer: every `ApplyOptions` implementation in the repository only sets
headers on the request. -/
structure ClientRequest where
  method : String := ""
  path : String := ""
  resourceType : String := ""
  resourceLink : String := ""
  options : Option (Headers → Headers) := none
  body : Option String := none
  getBody : Option (Nat → Except String String) := none

/-- `ClientRequest.readEntireBody`: drain `Body` (and replace it by an
equivalent buffer — the identity here, bodies being immutable byte strings),
else call `GetBody` once; `(nil, nil)` when neither is present. -/
def ClientRequest.readEntireBody (req : ClientRequest) : Except String (Option String) :=
  match req.body with
  | some d => .ok (some d)
  | none =>
    match req.getBody with
    | some g => (g 0).map some
    | none => .ok none

/-- `ClientRequest.reusableBody`: make the body replayable.  With only
`GetBody`, materialise one read into `Body`; with only `Body`, buffer its
bytes and install a `GetBody` that opens a fresh buffer over those same bytes
on every invocation (hence the constant function of the invocation index). -/
def ClientRequest.reusableBody (req : ClientRequest) : Except String ClientRequest :=
  match req.body, req.getBody with
  | none, some g => (g 0).map (fun data => { req with body := some data })
  | some d, none =>
    .ok { req with body := some d, getBody := some (fun _ => .ok d) }
  | _, _ => .ok req

/-- The `Client` configuration the core reads: user agent, endpoint, and the
`Authorizer` (the account's `MasterKey`). -/
structure GoClient where
  userAgent : String := ""
  endpoint : String := ""
  key : MasterKey := (none : Option (List Nat))

/-- `Client.NewHTTPRequest`: ensure the body is reusable, assemble
`endpoint/path`, set the user agent, apply the option chain, then authorize.
`date` stands for the `time.Now()` read inside `MasterKey.Authorize` for this
request.  (`http.NewRequest` failures — malformed method/URL — are not
modelled.) -/
def GoClient.NewHTTPRequest (c : GoClient) (req : ClientRequest) (date : String) :
    Except IError HRequest :=
  match req.reusableBody with
  | .error e => .error (.readBody e)
  | .ok r =>
    let url := goTrimSuffix c.endpoint "/" ++ "/" ++ goTrimPrefix r.path "/"
    let hreq0 : HRequest :=
      { method := r.method, url := url, headers := [], body := r.body, getBody := r.getBody }
    let ua := if c.userAgent != "" then c.userAgent else DefaultUserAgent
    let hreq1 := { hreq0 with headers := headerSet hreq0.headers HeaderUserAgent ua }
    let hreq2 :=
      match r.options with
      | some f => { hreq1 with headers := f hreq1.headers }
      | none => hreq1
    .ok (MasterKey.Authorize c.key hreq2 req.resourceType req.resourceLink date)

/-! ## Single-resource operations (`query.go`) -/

/-- The Go triple `([]byte, *ResponseMetadata, error)`. -/
structure OpResult where
  body : Option String := none
  meta : Option ResponseMetadata := none
  err : Option IError := none
  deriving BEq

/-- The Go triple `(bool, *ResponseMetadata, error)` from `DeleteResource`. -/
structure DelResult where
  ok : Bool := false
  meta : Option ResponseMetadata := none
  err : Option IError := none
  deriving BEq

/-- `Client.CreateOrReplaceResource`.  `dr` is what `Requester.Do` returns for
the built request.  Method defaults to POST; only PUT/POST are accepted.
Status switch: 200/201 success with the raw body; 412 precondition failure;
everything else a generic HTTP error carrying status and body. -/
def GoClient.CreateOrReplaceResource (c : GoClient) (request : ClientRequest) (date : String)
    (dr : Except String HResponse) : OpResult :=
  let m0 := goToUpper request.method
  let m :=
    if m0 = "" then "POST"
    else m0
  if m ≠ "POST" ∧ m ≠ "PUT" then
    { err := some (.invalidMethod m) }
  else
    match GoClient.NewHTTPRequest c { request with method := m } date with
    | .error e => { err := some e }
    | .ok _ =>
      match dr with
      | .error e => { err := some (.transport e) }
      | .ok resp =>
        let meta := GetResponseMetadata resp
        if resp.status = 200 ∨ resp.status = 201 then
          { body := some resp.bodyRaw, meta := some meta }
        else if resp.status = 412 then
          { meta := some meta, err := some .preconditionFailed }
        else
          { meta := some meta, err := some (.httpError resp.status resp.bodyRaw) }

/-- `Client.GetResource`.  Method forced to GET.  200 success; 412
precondition failure; 404 not-found; otherwise generic HTTP error. -/
def GoClient.GetResource (c : GoClient) (request : ClientRequest) (date : String)
    (dr : Except String HResponse) : OpResult :=
  match GoClient.NewHTTPRequest c { request with method := "GET" } date with
  | .error e => { err := some e }
  | .ok _ =>
    match dr with
    | .error e => { err := some (.transport e) }
    | .ok resp =>
      let meta := GetResponseMetadata resp
      if resp.status = 200 then
        { body := some resp.bodyRaw, meta := some meta }
      else if resp.status = 412 then
        { meta := some meta, err := some .preconditionFailed }
      else if resp.status = 404 then
        { meta := some meta, err := some .notFound }
      else
        { meta := some meta, err := some (.httpError resp.status resp.bodyRaw) }

/-- `Client.DeleteResource`.  Method forced to DELETE.  204 success (`true`);
412 precondition failure; 404 not-found; otherwise generic HTTP error. -/
def GoClient.DeleteResource (c : GoClient) (request : ClientRequest) (date : String)
    (dr : Except String HResponse) : DelResult :=
  match GoClient.NewHTTPRequest c { request with method := "DELETE" } date with
  | .error e => { err := some e }
  | .ok _ =>
    match dr with
    | .error e => { err := some (.transport e) }
    | .ok resp =>
      let meta := GetResponseMetadata resp
      if resp.status = 204 then
        { ok := true, meta := some meta }
      else if resp.status = 412 then
        { meta := some meta, err := some .preconditionFailed }
      else if resp.status = 404 then
        { meta := some meta, err := some .notFound }
      else
        { meta := some meta, err := some (.httpError resp.status resp.bodyRaw) }

/-! ## Pagination (`Client.ListResources`, `query.go`) -/

/-- `requestIsQuery`: tag a POST as a CosmosDB query. -/
def requestIsQuery (h : Headers) : Headers :=
  headerSet (headerSet h HeaderContentType ContentTypeQueryJSON) HeaderDocDBIsQuery "true"

/-- The page consumer `PaginateRawResources`.  The first argument is the
invocation index (Go consumers are closures and may behave differently per
call); the returned `Option String` is the Go `error`. -/
abbrev Consumer := Nat → List JValue → ResponseMetadata → Bool × Option String

/-- The scripted transport: the successive results of `Requester.Do`. -/
abbrev Transport := List (Except String HResponse)

/-- One loop iteration as observed from outside: the request that was issued
and the transport's answer for it. -/
structure ListStep where
  req : HRequest
  resp : Except String HResponse

/-- The request used for a continuation iteration: when the query body was
captured (`body != nil` in Go), reset the request body to a fresh buffer over
those bytes; otherwise reuse the request as-is. -/
def continuationRequest (request : ClientRequest) (qbody : Option String) : ClientRequest :=
  match qbody with
  | some b => { request with body := some b }
  | none => request

/-- The paginator loop of `Client.ListResources` (the `for` loop after
request setup).  Returns the steps taken (one per `Requester.Do` call), the
pages handed to the consumer, and the final error (`none` = the function
returned `nil`).  `qbody` is the `body` local of the Go code (non-nil only on
the POST/query path), `dates` supplies the per-request `time.Now()` reads,
and `idx` counts iterations.  Recursion is structural on the remaining
script; an exhausted script answers like a transport error. -/
def listLoop (c : GoClient) (request : ClientRequest) (qbody : Option String) (key : String)
    (fn : Consumer) (dates : Nat → String) (idx : Nat) (req : HRequest) :
    Transport → List ListStep × List (List JValue) × Option IError
  | [] => ([⟨req, .error "mock: out of responses"⟩], [], some (.transport "mock: out of responses"))
  | dr :: rest =>
    match dr with
    | .error e => ([⟨req, dr⟩], [], some (.transport e))
    | .ok resp =>
      if resp.status ≠ 200 then
        if resp.status = 304 then ([⟨req, dr⟩], [], some .notModified)
        else ([⟨req, dr⟩], [], some (.httpError resp.status resp.bodyRaw))
      else
        let meta := GetResponseMetadata resp
        match ParseArrayFromResponse resp.bodyJson key with
        | .error e => ([⟨req, dr⟩], [], some e)
        | .ok results =>
          match fn idx results meta with
          | (_, some e) => ([⟨req, dr⟩], [results], some (.consumer e))
          | (false, none) => ([⟨req, dr⟩], [results], none)
          | (true, none) =>
            if headerGet resp.headers HeaderContinuation ≠ "" then
              let request2 := continuationRequest request qbody
              match GoClient.NewHTTPRequest c request2 (dates (idx + 1)) with
              | .error e => ([⟨req, dr⟩], [results], some e)
              | .ok req1 =>
                let req2 := { req1 with headers := headerSet req1.headers HeaderSessionToken meta.sessionToken }
                let req3 := { req2 with headers := headerSet req2.headers HeaderContinuation meta.continuation }
                let (steps, pages, res) := listLoop c request2 qbody key fn dates (idx + 1) req3 rest
                (⟨req, dr⟩ :: steps, results :: pages, res)
            else ([⟨req, dr⟩], [results], none)

/-- `Client.ListResources`: method validation and query setup (`""` → GET;
POST → capture the query body and stack the `requestIsQuery` options; any
other method — including an explicit GET — is rejected), initial request
build, then the loop. -/
def GoClient.ListResources (c : GoClient) (key : String) (request0 : ClientRequest)
    (fn : Consumer) (dates : Nat → String) (script : Transport) :
    List ListStep × List (List JValue) × Option IError :=
  let request := { request0 with method := goToUpper request0.method }
  if request.method = "" then
    let request := { request with method := "GET" }
    match GoClient.NewHTTPRequest c request (dates 0) with
    | .error e => ([], [], some e)
    | .ok req => listLoop c request none key fn dates 0 req script
  else if request.method = "POST" then
    match request.readEntireBody with
    | .error e => ([], [], some (.readBody e))
    | .ok data =>
      let baseOpts : Headers → Headers :=
        match request.options with
        | some f => f
        | none => requestIsQuery
      let request := { request with options := some (fun h => requestIsQuery (baseOpts h)) }
      match GoClient.NewHTTPRequest c request (dates 0) with
      | .error e => ([], [], some e)
      | .ok req => listLoop c request data key fn dates 0 req script
  else
    ([], [], some (.invalidMethod request.method))


/-! ## Query and parameters (`query.go`) -/

mutual

/-- Stand-in for Go `fmt` `%#v` applied to the dynamic value behind a query
parameter's `interface{}`: Go-syntax representation of scalars; composite
values are rendered structurally (their exact Go-syntax spelling is
immaterial — no claim inspects it). -/
def goRepr : JValue → String
  | .null => "<nil>"
  | .bool b => if b then "true" else "false"
  | .num n => toString n
  | .str s => "\"" ++ s ++ "\""
  | .arr xs => "slice(" ++ goReprList xs ++ ")"
  | .obj fields => "map(" ++ goReprFields fields ++ ")"

def goReprList : List JValue → String
  | [] => ""
  | [x] => goRepr x
  | x :: xs => goRepr x ++ ", " ++ goReprList xs

def goReprFields : List (String × JValue) → String
  | [] => ""
  | [(k, v)] => k ++ ": " ++ goRepr v
  | (k, v) :: xs => k ++ ": " ++ goRepr v ++ ", " ++ goReprFields xs

end

/-- `QueryParameter`: name, value, and the debug-only `Sensitive` flag
(tagged `json:"-"`). -/
structure QueryParameter where
  name : String
  value : JValue
  sensitive : Bool := false

/-- `QueryParameter.String`: `name: value`, with the value replaced by
`!(sensitive)` when the parameter is sensitive. -/
def QueryParameter.String (p : QueryParameter) :=
  if p.sensitive then p.name ++ ": !(sensitive)" else p.name ++ ": " ++ goRepr p.value

/-- `Query`: the SQL-like text and parameters (serialized), plus the
pagination/session controls, all tagged `json:"-"` (headers only, never the
body).  The misspelt `consistencytLevel` mirrors the source field. -/
structure Query where
  query : String := ""
  parameters : List QueryParameter := []
  maxItemCount : Int := 0
  continuation : String := ""
  enableCrossPartition : Bool := false
  consistencytLevel : String := ""
  sessionToken : String := ""
  requestOptions : Option (Headers → Headers) := none

/-- `Query.String`: the query text, `;`, and — when parameters exist — the
bracketed `, `-joined parameter renderings. -/
def Query.String (q : Query) :=
  let base := q.query ++ ";"
  if 0 < q.parameters.length then
    base ++ " [" ++ goJoin ", " (q.parameters.map QueryParameter.String) ++ "]"
  else base

/-- `encoding/json` marshalling of a `QueryParameter` per its struct tags:
`name` and `value` are serialized (the value always unmasked), `Sensitive`
is tagged `json:"-"` and never serialized. -/
def QueryParameter.marshalJSON (p : QueryParameter) : JValue :=
  .obj [("name", .str p.name), ("value", p.value)]

/-- `encoding/json` marshalling of a `Query` per its struct tags: `query`,
then `parameters,omitempty`; `MaxItemCount`, `Continuation`,
`EnableCrossPartition`, `ConsistencytLevel`, `SessionToken` and
`RequestOptions` are all tagged `json:"-"` and never serialized. -/
def Query.marshalJSON (q : Query) : JValue :=
  .obj ([("query", .str q.query)] ++
    (if q.parameters.isEmpty then [] else
      [("parameters", .arr (q.parameters.map QueryParameter.marshalJSON))]))

/-- Flip the `Sensitive` flag of the `i`-th parameter (identity when out of
range): the probe used to state that sensitivity never reaches the wire. -/
def Query.setParamSensitive (q : Query) (i : Nat) (b : Bool) : Query :=
  match q.parameters.get? i with
  | some p => { q with parameters := q.parameters.set i { p with sensitive := b } }
  | none => q

/-! ## Header-map lemmas -/

theorem headerGet_set_self (h : Headers) (k v : String) : headerGet (headerSet h k v) k = v := by
  simp [headerGet, headerSet, List.find?]

theorem find?_filter_ne (h : Headers) (k k' : String) (hne : k' ≠ k) :
    List.find? (fun p => p.1 == k) (h.filter (fun p => p.1 != k')) =
      List.find? (fun p => p.1 == k) h := by
  induction h with
  | nil => simp
  | cons a t ih =>
    by_cases h1 : a.1 = k'
    · have hb1 : (a.1 != k') = false := by simp [h1]
      have hb2 : (a.1 == k) = false := by simp [h1, hne]
      simp [List.filter, List.find?, hb1, hb2, ih]
    · have hb1 : (a.1 != k') = true := by simp [h1]
      by_cases h2 : a.1 = k
      · have hb2 : (a.1 == k) = true := by simp [h2]
        simp [List.filter, List.find?, hb1, hb2]
      · have hb2 : (a.1 == k) = false := by simp [h2]
        simp [List.filter, List.find?, hb1, hb2, ih]

theorem headerGet_set_other (h : Headers) (k' v k : String) (hne : k' ≠ k) :
    headerGet (headerSet h k' v) k = headerGet h k := by
  have : (k' == k) = false := by simp [hne]
  simp [headerGet, headerSet, List.find?, this, find?_filter_ne h k k' hne]

theorem goJoin_six (a b c d : String) :
    goJoin "\n" [a, b, c, d, "", ""] = a ++ "\n" ++ b ++ "\n" ++ c ++ "\n" ++ d ++ "\n" ++ "\n" := by
  simp [goJoin, String.append_assoc, String.append_empty]

/-! ## Claim C1 -/

/-- C1: For every request, resource type, resource link and non-nil master
key, `MasterKey.Authorize` sets the `Authorization` header to the
percent-encoding of `type=master&ver=1.0&sig=<s>`, where `s` is the base64
HMAC-SHA256 (keyed by the raw key bytes) of
`lower(method) ++ "\n" ++ lower(resourceType) ++ "\n" ++ resourceLink ++
"\n" ++ lower(date) ++ "\n" ++ "\n"` (the resource link unmodified), and sets
`x-ms-date` to exactly the timestamp `date` that was signed — the two cannot
diverge. -/
theorem masterKey_authorize_signs_and_dates (kb : List Nat) (r : HRequest) (rt rl date : String) :
    headerGet (MasterKey.Authorize (some kb) r rt rl date).headers HeaderAuthorization =
      queryEscape ("type=master&ver=1.0&sig=" ++
        base64Encode (hmacSha256 kb (strBytes
          (goToLower r.method ++ "\n" ++ goToLower rt ++ "\n" ++ rl ++ "\n" ++
            goToLower date ++ "\n" ++ "\n")))) ∧
    headerGet (MasterKey.Authorize (some kb) r rt rl date).headers HeaderMSDate = date := by
  have hcs := goJoin_six (goToLower r.method) (resourceTypeString rt) rl (goToLower date)
  constructor
  · simp only [MasterKey.Authorize, MasterKey.Sign, hcs]
    rw [headerGet_set_other _ _ _ _ (by decide)]
    split
    · rw [headerGet_set_other _ _ _ _ (by decide), headerGet_set_self]
      rfl
    · rw [headerGet_set_self]
      rfl
  · simp only [MasterKey.Authorize]
    rw [headerGet_set_self]

/-! ## Claim C6 -/

/-- C6 counterexample: the claim says an *empty or nil* key makes `Authorize`
a no-op.  An empty-but-non-nil key (`some []`, Go `MasterKey{}`) fails the
`k == nil` test and signs normally: on a fresh GET request the `x-ms-date`
header goes from absent to the supplied date. -/
theorem emptyKey_authorize_sets_headers :
    headerGet (MasterKey.Authorize (some [])
        { method := "GET", url := "", headers := [], body := none, getBody := none }
        "dbs" "" "Thu, 01 Jan 1970 00:00:00 GMT").headers HeaderMSDate =
      "Thu, 01 Jan 1970 00:00:00 GMT" ∧
    headerGet ({ method := "GET", url := "", headers := [], body := none,
                 getBody := none } : HRequest).headers HeaderMSDate = "" := by
  constructor
  · rfl
  · rfl

/-- C6 (amended): only a *nil* master key makes `MasterKey.Authorize` a
no-op; the request is returned unmodified (no `Authorization`, `x-ms-date`
or `x-ms-version` header set) and there is no error.  An empty-but-non-nil
key signs normally. -/
theorem nilKey_authorize_is_noop (r : HRequest) (rt rl date : String) :
    MasterKey.Authorize (none : Option (List Nat)) r rt rl date = r := rfl

/-! ## Claim C10 -/

/-- C10: `GetResponseMetadata` never parses or assigns the
`x-ms-retry-after-ms` header: the `retryAfterMS` field of the returned
metadata is zero for every response, whatever the header holds. -/
theorem getResponseMetadata_retryAfterMS_zero (resp : HResponse) :
    (GetResponseMetadata resp).retryAfterMS = 0 := rfl

/-! ## Claim C7 -/

/-- `MasterKey.Authorize` only touches headers: the `GetBody` accessor of the
request is passed through untouched. -/
theorem authorize_preserves_getBody (k : MasterKey) (r : HRequest) (rt rl date : String) :
    (MasterKey.Authorize k r rt rl date).getBody = r.getBody := by
  cases k with
  | none => rfl
  | some kb =>
    simp only [MasterKey.Authorize]
    split <;> rfl

/-- C7: For a `ClientRequest` whose body is a single-use source (`GetBody`
nil), `Client.NewHTTPRequest` succeeds and installs a replay accessor that
yields exactly the original body bytes on *every* invocation — arbitrarily
many repeated reads all see the same bytes, none consumes them. -/
theorem newHTTPRequest_replayable_body (c : GoClient) (req : ClientRequest)
    (data : String) (date : String) (hb : req.body = some data) (hg : req.getBody = none) :
    ∃ hreq, GoClient.NewHTTPRequest c req date = .ok hreq ∧
      ∃ g, hreq.getBody = some g ∧ ∀ i : Nat, g i = .ok data := by
  have hru : req.reusableBody =
      .ok { req with body := some data, getBody := some (fun _ => .ok data) } := by
    simp only [ClientRequest.reusableBody, hb, hg]
  simp only [GoClient.NewHTTPRequest, hru]
  refine ⟨_, rfl, ?_⟩
  rw [authorize_preserves_getBody]
  cases hopt : req.options <;> exact ⟨_, rfl, fun _ => rfl⟩

/-- Closed witness for C7 at a concrete request carrying body `"hello"`. -/
theorem newHTTPRequest_replayable_body_witness :
    ∃ hreq, GoClient.NewHTTPRequest { userAgent := "", endpoint := "", key := (none : Option (List Nat)) }
        { method := "POST", path := "/dbs", resourceType := "dbs", resourceLink := "",
          options := none, body := some "hello", getBody := none } "d" = .ok hreq ∧
      ∃ g, hreq.getBody = some g ∧ ∀ i : Nat, g i = .ok "hello" :=
  newHTTPRequest_replayable_body _ _ "hello" "d" rfl rfl

/-! ## Claim C8 -/

/-- Serialization is blind to the `Sensitive` flag: flipping it on any list
element leaves the marshalled parameter list unchanged. -/
theorem marshalJSON_set_sensitive (l : List QueryParameter) (i : Nat) (b : Bool) (p : QueryParameter)
    (hp : l.get? i = some p) :
    (l.set i { p with sensitive := b }).map QueryParameter.marshalJSON =
      l.map QueryParameter.marshalJSON := by
  induction l generalizing i with
  | nil => simp at hp
  | cons a t ih =>
    cases i with
    | zero =>
      simp at hp
      subst hp
      simp [List.set, QueryParameter.marshalJSON]
    | succ j =>
      rw [List.get?_cons_succ] at hp
      simp only [List.set, List.map]
      rw [ih j hp]

/-- C8: A parameter's `Sensitive` flag changes only the debug rendering,
never the wire body: `QueryParameter.String` masks a sensitive value as
`!(sensitive)` (and shows a non-sensitive one), while the JSON serialization
of a `Query` is invariant under flag flips, contains the name and unmasked
value of every parameter, and contains none of the pagination fields
(max item count, continuation, cross-partition flag, consistency level,
session token). -/
theorem query_sensitive_is_debug_only (q : Query) (p : QueryParameter) :
    (p.sensitive = true → QueryParameter.String p = p.name ++ ": !(sensitive)") ∧
    (p.sensitive = false → QueryParameter.String p = p.name ++ ": " ++ goRepr p.value) ∧
    (∀ i b, Query.marshalJSON (q.setParamSensitive i b) = Query.marshalJSON q) ∧
    (q.parameters ≠ [] → Query.marshalJSON q = .obj
      [("query", .str q.query),
       ("parameters", .arr (q.parameters.map (fun r => .obj [("name", .str r.name), ("value", r.value)])))]) ∧
    (∀ mic cont ecp cl st, Query.marshalJSON
        { q with maxItemCount := mic, continuation := cont, enableCrossPartition := ecp,
                 consistencytLevel := cl, sessionToken := st } = Query.marshalJSON q) := by
  refine ⟨?_, ?_, ?_, ?_, ?_⟩
  · intro h
    simp [QueryParameter.String, h]
  · intro h
    simp [QueryParameter.String, h]
  · intro i b
    unfold Query.setParamSensitive
    cases hp : q.parameters.get? i with
    | none => rfl
    | some p' =>
      have hne : ((q.parameters.set i { p' with sensitive := b }).isEmpty) = q.parameters.isEmpty := by
        cases hq : q.parameters with
        | nil => rw [hq] at hp; simp at hp
        | cons a t => cases i <;> simp [List.set]
      simp only [Query.marshalJSON]
      rw [hne, marshalJSON_set_sensitive q.parameters i b p' hp]
  · intro h
    have : q.parameters.isEmpty = false := by
      cases hq : q.parameters with
      | nil => exact absurd hq h
      | cons a t => simp
    simp [Query.marshalJSON, this, QueryParameter.marshalJSON]
  · intro mic cont ecp cl st
    rfl

/-- Closed witness for C8: one sensitive and one non-sensitive parameter. -/
theorem query_sensitive_is_debug_only_witness :
    QueryParameter.String { name := "@pass", value := .str "hunter2", sensitive := true } =
      "@pass: !(sensitive)" ∧
    Query.marshalJSON
        { query := "SELECT 1",
          parameters := [{ name := "@pass", value := .str "hunter2", sensitive := true },
                         { name := "@id", value := .num 7 }] } =
      .obj [("query", .str "SELECT 1"),
            ("parameters", .arr [.obj [("name", .str "@pass"), ("value", .str "hunter2")],
                                 .obj [("name", .str "@id"), ("value", .num 7)]])] := by
  constructor
  · exact (query_sensitive_is_debug_only {} ⟨"@pass", .str "hunter2", true⟩).1 rfl
  · have h := (query_sensitive_is_debug_only
      { query := "SELECT 1",
        parameters := [{ name := "@pass", value := .str "hunter2", sensitive := true },
                       { name := "@id", value := .num 7 }] } ⟨"", .null, false⟩).2.2.2.1 (by simp)
    rw [h]
    rfl

/-! ## Claim C3 -/

/-- `reusableBody` never fails when the request carries no `GetBody`
closure. -/
theorem reusableBody_ok_of_getBody_none (req : ClientRequest) (h : req.getBody = none) :
    ∃ r, req.reusableBody = .ok r ∧ r.getBody = none ∨
      req.reusableBody = .ok r ∧ r = { req with getBody := r.getBody } := by
  cases hb : req.body with
  | none => exact ⟨req, .inl ⟨by simp [ClientRequest.reusableBody, hb, h], h⟩⟩
  | some d =>
    exact ⟨{ req with getBody := some fun _ => .ok d },
      .inr ⟨by simp [ClientRequest.reusableBody, hb, h], by rw [← hb]⟩⟩

/-- `NewHTTPRequest` never fails when the request carries no `GetBody`
closure. -/
theorem newHTTPRequest_ok_of_getBody_none (c : GoClient) (req : ClientRequest) (date : String)
    (h : req.getBody = none) : ∃ r, GoClient.NewHTTPRequest c req date = .ok r := by
  obtain ⟨r, hr⟩ : ∃ r, req.reusableBody = .ok r := by
    rcases reusableBody_ok_of_getBody_none req h with ⟨r, ⟨h1, _⟩ | ⟨h1, _⟩⟩ <;> exact ⟨r, h1⟩
  unfold GoClient.NewHTTPRequest
  rw [hr]
  exact ⟨_, rfl⟩

/-- C3 (amended): status-code classification of the operations.  412 maps to
`ErrPreconditionFailed` from create/get/delete; 404 maps to
`ErrResourceNotFound` from get and delete but to the *generic* transport
error from `CreateOrReplaceResource` (its switch has no 404 case); 204 in
`DeleteResource` is success as the boolean `true` with nil error; 304 in the
`ListResources` path is `ErrResourceNotModified`; any other non-success
status yields the generic transport error carrying status and body. -/
theorem status_mapping (c : GoClient) (request : ClientRequest) (date key : String)
    (resp : HResponse) (fn : Consumer) (dates : Nat → String)
    (hgb : request.getBody = none)
    (hm : goToUpper request.method = "" ∨ goToUpper request.method = "POST" ∨
      goToUpper request.method = "PUT") :
    (resp.status = 412 →
      (GoClient.CreateOrReplaceResource c request date (.ok resp)).err = some .preconditionFailed ∧
      (GoClient.GetResource c request date (.ok resp)).err = some .preconditionFailed ∧
      (GoClient.DeleteResource c request date (.ok resp)).err = some .preconditionFailed) ∧
    (resp.status = 404 →
      (GoClient.GetResource c request date (.ok resp)).err = some .notFound ∧
      (GoClient.DeleteResource c request date (.ok resp)).err = some .notFound ∧
      (GoClient.CreateOrReplaceResource c request date (.ok resp)).err =
        some (.httpError 404 resp.bodyRaw)) ∧
    (resp.status = 204 →
      GoClient.DeleteResource c request date (.ok resp) =
        { ok := true, meta := some (GetResponseMetadata resp), err := none }) ∧
    (goToUpper request.method = "" → resp.status = 304 →
      (GoClient.ListResources c key request fn dates [.ok resp]).2.2 = some .notModified) ∧
    (resp.status ≠ 200 → resp.status ≠ 201 → resp.status ≠ 412 →
      (GoClient.CreateOrReplaceResource c request date (.ok resp)).err =
        some (.httpError resp.status resp.bodyRaw)) ∧
    (resp.status ≠ 200 → resp.status ≠ 412 → resp.status ≠ 404 →
      (GoClient.GetResource c request date (.ok resp)).err =
        some (.httpError resp.status resp.bodyRaw)) ∧
    (resp.status ≠ 204 → resp.status ≠ 412 → resp.status ≠ 404 →
      (GoClient.DeleteResource c request date (.ok resp)).err =
        some (.httpError resp.status resp.bodyRaw)) ∧
    (goToUpper request.method = "" → resp.status ≠ 200 → resp.status ≠ 304 →
      (GoClient.ListResources c key request fn dates [.ok resp]).2.2 =
        some (.httpError resp.status resp.bodyRaw)) := by
  have hval : ¬((if goToUpper request.method = "" then "POST" else goToUpper request.method) ≠ "POST" ∧
      (if goToUpper request.method = "" then "POST" else goToUpper request.method) ≠ "PUT") := by
    rcases hm with h | h | h <;> simp [h]
  obtain ⟨rc, hrc⟩ := newHTTPRequest_ok_of_getBody_none c
    { request with method := (if goToUpper request.method = "" then "POST" else goToUpper request.method) } date hgb
  obtain ⟨rg, hrg⟩ := newHTTPRequest_ok_of_getBody_none c { request with method := "GET" } date hgb
  obtain ⟨rd, hrd⟩ := newHTTPRequest_ok_of_getBody_none c { request with method := "DELETE" } date hgb
  have hcr : GoClient.CreateOrReplaceResource c request date (.ok resp) =
      (if resp.status = 200 ∨ resp.status = 201 then
        ({ body := some resp.bodyRaw, meta := some (GetResponseMetadata resp) } : OpResult)
      else if resp.status = 412 then
        { meta := some (GetResponseMetadata resp), err := some .preconditionFailed }
      else
        { meta := some (GetResponseMetadata resp),
          err := some (.httpError resp.status resp.bodyRaw) }) := by
    simp only [GoClient.CreateOrReplaceResource]
    rw [if_neg hval, hrc]
  have hget : GoClient.GetResource c request date (.ok resp) =
      (if resp.status = 200 then
        ({ body := some resp.bodyRaw, meta := some (GetResponseMetadata resp) } : OpResult)
      else if resp.status = 412 then
        { meta := some (GetResponseMetadata resp), err := some .preconditionFailed }
      else if resp.status = 404 then
        { meta := some (GetResponseMetadata resp), err := some .notFound }
      else
        { meta := some (GetResponseMetadata resp),
          err := some (.httpError resp.status resp.bodyRaw) }) := by
    simp only [GoClient.GetResource]
    rw [hrg]
  have hdel : GoClient.DeleteResource c request date (.ok resp) =
      (if resp.status = 204 then
        ({ ok := true, meta := some (GetResponseMetadata resp) } : DelResult)
      else if resp.status = 412 then
        { meta := some (GetResponseMetadata resp), err := some .preconditionFailed }
      else if resp.status = 404 then
        { meta := some (GetResponseMetadata resp), err := some .notFound }
      else
        { meta := some (GetResponseMetadata resp),
          err := some (.httpError resp.status resp.bodyRaw) }) := by
    simp only [GoClient.DeleteResource]
    rw [hrd]
  have hlist : goToUpper request.method = "" →
      ∃ rg0, GoClient.ListResources c key request fn dates [.ok resp] =
        listLoop c { { request with method := goToUpper request.method } with method := "GET" }
          none key fn dates 0 rg0 [.ok resp] := by
    intro h0
    obtain ⟨rg0, hrg0⟩ := newHTTPRequest_ok_of_getBody_none c
      { { request with method := goToUpper request.method } with method := "GET" } (dates 0) hgb
    refine ⟨rg0, ?_⟩
    simp only [GoClient.ListResources, h0, if_true]
    rw [hrg0]
  refine ⟨?_, ?_, ?_, ?_, ?_, ?_, ?_, ?_⟩
  · intro h412
    refine ⟨?_, ?_, ?_⟩ <;> simp [hcr, hget, hdel, h412]
  · intro h404
    refine ⟨?_, ?_, ?_⟩ <;> simp [hcr, hget, hdel, h404]
  · intro h204
    simp [hdel, h204]
  · intro h0 h304
    obtain ⟨rg0, hL⟩ := hlist h0
    rw [hL]
    simp [listLoop, h304]
  · intro hs1 hs2 hs3
    simp [hcr, hs1, hs2, hs3]
  · intro hs1 hs2 hs3
    simp [hget, hs1, hs2, hs3]
  · intro hs1 hs2 hs3
    simp [hdel, hs1, hs2, hs3]
  · intro h0 hs200 hs304
    obtain ⟨rg0, hL⟩ := hlist h0
    rw [hL]
    simp [listLoop, hs200, hs304]

/-- C3 counterexample: the claim says 404 yields `ErrResourceNotFound` from
all single-resource operations including `CreateOrReplaceResource`; but a
404 response to create/replace yields the generic transport error, not
`ErrResourceNotFound`. -/
theorem create_404_is_generic_error :
    (GoClient.CreateOrReplaceResource {} {} "d"
        (.ok { status := 404, bodyRaw := "missing" })).err = some (.httpError 404 "missing") ∧
    some (IError.httpError 404 "missing") ≠ some IError.notFound := by
  constructor
  · decide
  · decide

/-- Closed witness for C3 at statuses 412, 204 and 304. -/
theorem status_mapping_witness :
    (GoClient.GetResource {} {} "d" (.ok { status := 412 })).err = some .preconditionFailed ∧
    GoClient.DeleteResource {} {} "d" (.ok { status := 204 }) =
      { ok := true, meta := some (GetResponseMetadata { status := 204 }), err := none } ∧
    (GoClient.ListResources {} "k" {} (fun _ _ _ => (true, none)) (fun _ => "d")
        [.ok { status := 304 }]).2.2 = some .notModified := by
  have h1 := status_mapping ({} : GoClient) ({} : ClientRequest) "d" "k" { status := 412 }
    (fun _ _ _ => (true, none)) (fun _ => "d") rfl (Or.inl (by decide))
  have h2 := status_mapping ({} : GoClient) ({} : ClientRequest) "d" "k" { status := 204 }
    (fun _ _ _ => (true, none)) (fun _ => "d") rfl (Or.inl (by decide))
  have h3 := status_mapping ({} : GoClient) ({} : ClientRequest) "d" "k" { status := 304 }
    (fun _ _ _ => (true, none)) (fun _ => "d") rfl (Or.inl (by decide))
  exact ⟨(h1.1 rfl).2.1, h2.2.2.1 rfl, h3.2.2.2.1 rfl rfl⟩

/-- One-step unfolding of `listLoop` on a non-empty script (the definitional
equation, restated so proofs can rewrite a single iteration without the
equation generator). -/
theorem listLoop_cons (c : GoClient) (request : ClientRequest) (qbody : Option String)
    (key : String) (fn : Consumer) (dates : Nat → String) (idx : Nat) (req : HRequest)
    (dr : Except String HResponse) (rest : Transport) :
    listLoop c request qbody key fn dates idx req (dr :: rest) =
      match dr with
      | .error e => ([⟨req, dr⟩], [], some (.transport e))
      | .ok resp =>
        if resp.status ≠ 200 then
          if resp.status = 304 then ([⟨req, dr⟩], [], some .notModified)
          else ([⟨req, dr⟩], [], some (.httpError resp.status resp.bodyRaw))
        else
          let meta := GetResponseMetadata resp
          match ParseArrayFromResponse resp.bodyJson key with
          | .error e => ([⟨req, dr⟩], [], some e)
          | .ok results =>
            match fn idx results meta with
            | (_, some e) => ([⟨req, dr⟩], [results], some (.consumer e))
            | (false, none) => ([⟨req, dr⟩], [results], none)
            | (true, none) =>
              if headerGet resp.headers HeaderContinuation ≠ "" then
                let request2 := continuationRequest request qbody
                match GoClient.NewHTTPRequest c request2 (dates (idx + 1)) with
                | .error e => ([⟨req, dr⟩], [results], some e)
                | .ok req1 =>
                  let req2 := { req1 with headers := headerSet req1.headers HeaderSessionToken meta.sessionToken }
                  let req3 := { req2 with headers := headerSet req2.headers HeaderContinuation meta.continuation }
                  let (steps, pages, res) := listLoop c request2 qbody key fn dates (idx + 1) req3 rest
                  (⟨req, dr⟩ :: steps, results :: pages, res)
              else ([⟨req, dr⟩], [results], none) := rfl

theorem listLoop_all_pages (c : GoClient) (key : String) (fn : Consumer) (dates : Nat → String) :
    ∀ (script : Transport) (request : ClientRequest) (qbody : Option String) (idx : Nat)
      (req : HRequest),
    request.getBody = none →
    script ≠ [] →
    (∀ i, i < script.length → ∃ resp, script[i]? = some (.ok resp) ∧ resp.status = 200 ∧
      (∃ rs, ParseArrayFromResponse resp.bodyJson key = .ok rs) ∧
      ((headerGet resp.headers HeaderContinuation ≠ "") ↔ i + 1 < script.length)) →
    (∀ i page meta, fn i page meta = (true, none)) →
    (listLoop c request qbody key fn dates idx req script).1.length = script.length ∧
    (listLoop c request qbody key fn dates idx req script).2.2 = none := by
  intro script
  induction script with
  | nil => intro request qbody idx req _ hne _ _; exact absurd rfl hne
  | cons dr rest ih =>
    intro request qbody idx req hgb _ hscript hfn
    obtain ⟨resp, hdr, h200, ⟨rs, hparse⟩, hcont⟩ := hscript 0 (by simp)
    rw [List.getElem?_cons_zero] at hdr
    have hdr2 : dr = .ok resp := by injection hdr
    subst hdr2
    cases rest with
    | nil =>
      have hc : headerGet resp.headers HeaderContinuation = "" := by
        by_contra hc
        have := hcont.mp hc
        simp at this
      simp [listLoop, h200, hparse, hfn, hc]
    | cons dr2 rest2 =>
      have hc : headerGet resp.headers HeaderContinuation ≠ "" := hcont.mpr (by simp)
      have hgb' : (continuationRequest request qbody).getBody = none := by
        cases qbody <;> simpa [continuationRequest] using hgb
      obtain ⟨req1, hreq1⟩ := newHTTPRequest_ok_of_getBody_none c _ (dates (idx + 1)) hgb'
      have hscript' : ∀ i, i < (dr2 :: rest2).length →
          ∃ resp2, (dr2 :: rest2)[i]? = some (.ok resp2) ∧ resp2.status = 200 ∧
            (∃ rs2, ParseArrayFromResponse resp2.bodyJson key = .ok rs2) ∧
            ((headerGet resp2.headers HeaderContinuation ≠ "") ↔ i + 1 < (dr2 :: rest2).length) := by
        intro i h
        obtain ⟨r2, hg, hs, hp, hcnt⟩ := hscript (i + 1) (by simpa using Nat.succ_lt_succ h)
        rw [List.getElem?_cons_succ] at hg
        simp only [List.length_cons] at hcnt h ⊢
        refine ⟨r2, hg, hs, hp, ?_⟩
        constructor
        · intro hcc
          have := hcnt.mp hcc
          omega
        · intro hlt
          exact hcnt.mpr (by omega)
      have ihres := ih _ qbody (idx + 1)
        (HRequest.mk req1.method req1.url
          (headerSet (headerSet req1.headers HeaderSessionToken
            (GetResponseMetadata resp).sessionToken) HeaderContinuation
            (GetResponseMetadata resp).continuation)
          req1.body req1.getBody)
        hgb' (by simp) hscript' hfn
      refine ⟨?_, ?_⟩
      · conv_lhs => rw [listLoop_cons]
        simp only [h200, hparse, hfn, hc, hreq1, ne_eq, List.length_cons]
        simp [ihres.1]
      · conv_lhs => rw [listLoop_cons]
        simp only [h200, hparse, hfn, hc, hreq1, ne_eq]
        simp [ihres.2]

/-- `readEntireBody` never fails when the request carries no `GetBody`
closure. -/
theorem readEntireBody_not_error (req : ClientRequest) (h : req.getBody = none) (e : String) :
    req.readEntireBody = .error e → False := by
  intro hcon
  cases hb : req.body with
  | some d => rw [ClientRequest.readEntireBody, hb] at hcon; cases hcon
  | none => rw [ClientRequest.readEntireBody, hb, h] at hcon; cases hcon

/-- `NewHTTPRequest` never fails when the request carries no `GetBody`
closure (error form of `newHTTPRequest_ok_of_getBody_none`). -/
theorem newHTTPRequest_not_error (c : GoClient) (req : ClientRequest) (date : String)
    (h : req.getBody = none) (e : IError) :
    GoClient.NewHTTPRequest c req date = .error e → False := by
  intro hcon
  obtain ⟨r, hr⟩ := newHTTPRequest_ok_of_getBody_none c req date h
  rw [hr] at hcon
  cases hcon

/-- C2: With a transport scripted to return `N ≥ 1` consecutive 200 pages,
each carrying a non-empty `x-ms-continuation` header except the last, and a
consumer that always answers `(true, nil)`, `Client.ListResources` issues
exactly `N` transport requests and returns `nil`. -/
theorem listResources_pagination_termination (c : GoClient) (key : String)
    (request : ClientRequest) (fn : Consumer) (dates : Nat → String) (script : Transport)
    (N : Nat) (hN : 1 ≤ N) (hlen : script.length = N)
    (hgb : request.getBody = none)
    (hm : goToUpper request.method = "" ∨ goToUpper request.method = "POST")
    (hscript : ∀ i, i < N → ∃ resp, script[i]? = some (.ok resp) ∧ resp.status = 200 ∧
      (∃ rs, ParseArrayFromResponse resp.bodyJson key = .ok rs) ∧
      ((headerGet resp.headers HeaderContinuation ≠ "") ↔ i + 1 < N))
    (hfn : ∀ i page meta, fn i page meta = (true, none)) :
    (GoClient.ListResources c key request fn dates script).1.length = N ∧
    (GoClient.ListResources c key request fn dates script).2.2 = none := by
  subst hlen
  have hne : script ≠ [] := by
    intro h
    rw [h] at hN
    simp at hN
  rcases hm with h0 | hp
  · simp only [GoClient.ListResources, h0, if_true]
    split
    · rename_i e heq
      exact (newHTTPRequest_not_error c _ (dates 0) (by exact hgb) e heq).elim
    · rename_i req1 heq
      exact listLoop_all_pages c key fn dates script _ none 0 req1 hgb hne hscript hfn
  · have hb1 : ("POST" = "") = False := by simp
    have hb2 : ("POST" = "POST") = True := by simp
    simp only [GoClient.ListResources, hp, hb1, hb2, if_true, if_false]
    split
    · rename_i e heq
      exact (readEntireBody_not_error _ (by exact hgb) e heq).elim
    · rename_i data heq
      split
      · rename_i e heq2
        exact (newHTTPRequest_not_error c _ (dates 0) (by exact hgb) e heq2).elim
      · rename_i req1 heq2
        exact listLoop_all_pages c key fn dates script _ data 0 req1 hgb hne hscript hfn

/-- Closed witness for C2: two pages, the first carrying a continuation
token, consumed by an always-continue consumer. -/
theorem listResources_pagination_termination_witness :
    (GoClient.ListResources {} "Documents" {} (fun _ _ _ => (true, none)) (fun _ => "d")
        [.ok { status := 200, headers := [(HeaderContinuation, "tok")],
               bodyJson := .ok (.obj [("Documents", .arr [])]) },
         .ok { status := 200, headers := [],
               bodyJson := .ok (.obj [("Documents", .arr [])]) }]).1.length = 2 ∧
    (GoClient.ListResources {} "Documents" {} (fun _ _ _ => (true, none)) (fun _ => "d")
        [.ok { status := 200, headers := [(HeaderContinuation, "tok")],
               bodyJson := .ok (.obj [("Documents", .arr [])]) },
         .ok { status := 200, headers := [],
               bodyJson := .ok (.obj [("Documents", .arr [])]) }]).2.2 = none := by
  apply listResources_pagination_termination {} "Documents" {} (fun _ _ _ => (true, none))
    (fun _ => "d")
    [.ok { status := 200, headers := [(HeaderContinuation, "tok")],
           bodyJson := .ok (.obj [("Documents", .arr [])]) },
     .ok { status := 200, headers := [],
           bodyJson := .ok (.obj [("Documents", .arr [])]) }]
    2 (by decide) rfl rfl (Or.inl (by decide))
  · intro i hi
    rcases i with _ | _ | i
    · exact ⟨_, rfl, rfl, ⟨[], rfl⟩, by decide⟩
    · exact ⟨_, rfl, rfl, ⟨[], rfl⟩, by decide⟩
    · exact absurd hi (by omega)
  · intro i page meta
    rfl

theorem listLoop_early_stop (c : GoClient) (key : String) (fn : Consumer) (dates : Nat → String) :
    ∀ (k : Nat) (script : Transport) (request : ClientRequest) (qbody : Option String)
      (idx : Nat) (req : HRequest),
    request.getBody = none →
    1 ≤ k → k ≤ script.length →
    (∀ i, i < k → ∃ resp, script[i]? = some (.ok resp) ∧ resp.status = 200 ∧
      (∃ rs, ParseArrayFromResponse resp.bodyJson key = .ok rs) ∧
      (i < k - 1 → headerGet resp.headers HeaderContinuation ≠ "")) →
    (∀ i, i < k - 1 → ∀ page meta, fn (idx + i) page meta = (true, none)) →
    (∀ page meta, fn (idx + (k - 1)) page meta = (false, none)) →
    (listLoop c request qbody key fn dates idx req script).1.length = k ∧
    (listLoop c request qbody key fn dates idx req script).2.2 = none := by
  intro k
  induction k with
  | zero => intro script request qbody idx req _ hk1 _ _ _ _; omega
  | succ k ih =>
    intro script request qbody idx req hgb _ hk2 hscript hfncont hfnlast
    cases script with
    | nil => simp at hk2
    | cons dr rest =>
      obtain ⟨resp, hdr, h200, ⟨rs, hparse⟩, hcont0⟩ := hscript 0 (by omega)
      rw [List.getElem?_cons_zero] at hdr
      have hdr2 : dr = .ok resp := by injection hdr
      subst hdr2
      cases k with
      | zero =>
        have hl : fn idx rs (GetResponseMetadata resp) = (false, none) := by
          have := hfnlast rs (GetResponseMetadata resp)
          simpa using this
        rw [listLoop_cons]
        simp [h200, hparse, hl]
      | succ k2 =>
        have hfirst : fn idx rs (GetResponseMetadata resp) = (true, none) := by
          have := hfncont 0 (by omega) rs (GetResponseMetadata resp)
          simpa using this
        have hc : headerGet resp.headers HeaderContinuation ≠ "" := hcont0 (by omega)
        have hgb' : (continuationRequest request qbody).getBody = none := by
          cases qbody <;> simpa [continuationRequest] using hgb
        obtain ⟨req1, hreq1⟩ := newHTTPRequest_ok_of_getBody_none c _ (dates (idx + 1)) hgb'
        have hscript' : ∀ i, i < k2 + 1 → ∃ resp2, rest[i]? = some (.ok resp2) ∧
            resp2.status = 200 ∧
            (∃ rs2, ParseArrayFromResponse resp2.bodyJson key = .ok rs2) ∧
            (i < (k2 + 1) - 1 → headerGet resp2.headers HeaderContinuation ≠ "") := by
          intro i h
          obtain ⟨r2, hg, hs, hp, hcnt⟩ := hscript (i + 1) (by omega)
          rw [List.getElem?_cons_succ] at hg
          exact ⟨r2, hg, hs, hp, fun hi => hcnt (by omega)⟩
        have hfncont' : ∀ i, i < (k2 + 1) - 1 → ∀ page meta,
            fn ((idx + 1) + i) page meta = (true, none) := by
          intro i h page meta
          have heq : (idx + 1) + i = idx + (i + 1) := by omega
          rw [heq]
          exact hfncont (i + 1) (by omega) page meta
        have hfnlast' : ∀ page meta, fn ((idx + 1) + ((k2 + 1) - 1)) page meta = (false, none) := by
          intro page meta
          have heq : (idx + 1) + ((k2 + 1) - 1) = idx + ((k2 + 2) - 1) := by omega
          rw [heq]
          exact hfnlast page meta
        have ihres := ih rest _ qbody (idx + 1)
          (HRequest.mk req1.method req1.url
            (headerSet (headerSet req1.headers HeaderSessionToken
              (GetResponseMetadata resp).sessionToken) HeaderContinuation
              (GetResponseMetadata resp).continuation)
            req1.body req1.getBody)
          hgb' (by omega) (by simp at hk2 ⊢; omega) hscript' hfncont' hfnlast'
        refine ⟨?_, ?_⟩
        · conv_lhs => rw [listLoop_cons]
          simp only [h200, hparse, hfirst, hc, hreq1, ne_eq, List.length_cons]
          simp [ihres.1]
        · conv_lhs => rw [listLoop_cons]
          simp only [h200, hparse, hfirst, hc, hreq1, ne_eq]
          simp [ihres.2]

/-- C4: If the consumer answers `(true, nil)` on the first `k-1` pages and
`(false, nil)` on the `k`-th delivered page, `Client.ListResources` stops
after exactly `k` transport requests and returns `nil` — a caller-initiated
early stop is success — regardless of whether the `k`-th response carried a
continuation token. -/
theorem listResources_early_stop (c : GoClient) (key : String)
    (request : ClientRequest) (fn : Consumer) (dates : Nat → String) (script : Transport)
    (k : Nat) (hk1 : 1 ≤ k) (hk2 : k ≤ script.length)
    (hgb : request.getBody = none)
    (hm : goToUpper request.method = "" ∨ goToUpper request.method = "POST")
    (hscript : ∀ i, i < k → ∃ resp, script[i]? = some (.ok resp) ∧ resp.status = 200 ∧
      (∃ rs, ParseArrayFromResponse resp.bodyJson key = .ok rs) ∧
      (i < k - 1 → headerGet resp.headers HeaderContinuation ≠ ""))
    (hfncont : ∀ i, i < k - 1 → ∀ page meta, fn i page meta = (true, none))
    (hfnlast : ∀ page meta, fn (k - 1) page meta = (false, none)) :
    (GoClient.ListResources c key request fn dates script).1.length = k ∧
    (GoClient.ListResources c key request fn dates script).2.2 = none := by
  have hfncont0 : ∀ i, i < k - 1 → ∀ page meta, fn (0 + i) page meta = (true, none) := by
    intro i h page meta
    rw [Nat.zero_add]
    exact hfncont i h page meta
  have hfnlast0 : ∀ page meta, fn (0 + (k - 1)) page meta = (false, none) := by
    intro page meta
    rw [Nat.zero_add]
    exact hfnlast page meta
  rcases hm with h0 | hp
  · simp only [GoClient.ListResources, h0, if_true]
    split
    · rename_i e heq
      exact (newHTTPRequest_not_error c _ (dates 0) (by exact hgb) e heq).elim
    · rename_i req1 heq
      exact listLoop_early_stop c key fn dates k script _ none 0 req1 hgb hk1 hk2
        hscript hfncont0 hfnlast0
  · have hb1 : ("POST" = "") = False := by simp
    have hb2 : ("POST" = "POST") = True := by simp
    simp only [GoClient.ListResources, hp, hb1, hb2, if_true, if_false]
    split
    · rename_i e heq
      exact (readEntireBody_not_error _ (by exact hgb) e heq).elim
    · rename_i data heq
      split
      · rename_i e heq2
        exact (newHTTPRequest_not_error c _ (dates 0) (by exact hgb) e heq2).elim
      · rename_i req1 heq2
        exact listLoop_early_stop c key fn dates k script _ data 0 req1 hgb hk1 hk2
          hscript hfncont0 hfnlast0

/-- Closed witness for C4: the consumer stops on the very first page even
though that page carries a continuation token. -/
theorem listResources_early_stop_witness :
    (GoClient.ListResources {} "Documents" {} (fun _ _ _ => (false, none)) (fun _ => "d")
        [.ok { status := 200, headers := [(HeaderContinuation, "tok")],
               bodyJson := .ok (.obj [("Documents", .arr [])]) },
         .ok { status := 200, headers := [],
               bodyJson := .ok (.obj [("Documents", .arr [])]) }]).1.length = 1 ∧
    (GoClient.ListResources {} "Documents" {} (fun _ _ _ => (false, none)) (fun _ => "d")
        [.ok { status := 200, headers := [(HeaderContinuation, "tok")],
               bodyJson := .ok (.obj [("Documents", .arr [])]) },
         .ok { status := 200, headers := [],
               bodyJson := .ok (.obj [("Documents", .arr [])]) }]).2.2 = none := by
  apply listResources_early_stop {} "Documents" {} (fun _ _ _ => (false, none)) (fun _ => "d")
    [.ok { status := 200, headers := [(HeaderContinuation, "tok")],
           bodyJson := .ok (.obj [("Documents", .arr [])]) },
     .ok { status := 200, headers := [],
           bodyJson := .ok (.obj [("Documents", .arr [])]) }]
    1 (by decide) (by decide) rfl (Or.inl (by decide))
  · intro i hi
    rcases i with _ | i
    · exact ⟨_, rfl, rfl, ⟨[], rfl⟩, by omega⟩
    · exact absurd hi (by omega)
  · intro i hi page meta
    exact absurd hi (by omega)
  · intro page meta
    rfl

theorem parseArrayFromResponse_missing_key (fields : List (String × JValue)) (key : String)
    (h : jLookup fields key = none) :
    ParseArrayFromResponse (.ok (.obj fields)) key = .error .keyNotFound := by
  simp [ParseArrayFromResponse, ParseObjectResponse, h]

theorem listLoop_parse_error_stops (c : GoClient) (key : String) (fn : Consumer)
    (dates : Nat → String) :
    ∀ (script : Transport) (request : ClientRequest) (qbody : Option String)
      (idx : Nat) (req : HRequest) (j : Nat) (s : ListStep) (resp : HResponse) (e : IError),
    (listLoop c request qbody key fn dates idx req script).1[j]? = some s →
    s.resp = .ok resp →
    resp.status = 200 →
    ParseArrayFromResponse resp.bodyJson key = .error e →
    (listLoop c request qbody key fn dates idx req script).2.2 = some e ∧
    (listLoop c request qbody key fn dates idx req script).1.length = j + 1 ∧
    (listLoop c request qbody key fn dates idx req script).2.1.length = j := by
  intro script
  induction script with
  | nil =>
    intro request qbody idx req j s resp e hj hs h200 hparse
    simp only [listLoop] at hj
    rcases j with _ | j
    · rw [List.getElem?_cons_zero] at hj
      injection hj with hj2
      rw [← hj2] at hs
      cases hs
    · rw [List.getElem?_cons_succ, List.getElem?_nil] at hj
      cases hj
  | cons dr rest ih =>
    intro request qbody idx req j s resp e hj hs h200 hparse
    rw [listLoop_cons] at hj ⊢
    cases dr with
    | error emsg =>
      rcases j with _ | j
      · rw [List.getElem?_cons_zero] at hj
        injection hj with hj2
        rw [← hj2] at hs
        cases hs
      · rw [List.getElem?_cons_succ, List.getElem?_nil] at hj
        cases hj
    | ok resp0 =>
      by_cases hst : resp0.status = 200
      · have hne : ¬(resp0.status ≠ 200) := by simp [hst]
        simp only [hne, if_false, if_neg hne] at hj ⊢
        cases hp0 : ParseArrayFromResponse resp0.bodyJson key with
        | error e0 =>
          simp only [hp0] at hj ⊢
          rcases j with _ | j
          · rw [List.getElem?_cons_zero] at hj
            injection hj with hj2
            rw [← hj2] at hs
            injection hs with hs2
            subst hs2
            rw [hparse] at hp0
            injection hp0 with hp2
            subst hp2
            exact ⟨rfl, rfl, rfl⟩
          · rw [List.getElem?_cons_succ, List.getElem?_nil] at hj
            cases hj
        | ok results =>
          simp only [hp0] at hj ⊢
          rcases hfn : fn idx results (GetResponseMetadata resp0) with ⟨ok1, err1⟩
          cases err1 with
          | some emsg =>
            simp only [hfn] at hj ⊢
            rcases j with _ | j
            · rw [List.getElem?_cons_zero] at hj
              injection hj with hj2
              rw [← hj2] at hs
              injection hs with hs2
              subst hs2
              rw [hparse] at hp0
              cases hp0
            · rw [List.getElem?_cons_succ, List.getElem?_nil] at hj
              cases hj
          | none =>
            cases ok1 with
            | false =>
              simp only [hfn] at hj ⊢
              rcases j with _ | j
              · rw [List.getElem?_cons_zero] at hj
                injection hj with hj2
                rw [← hj2] at hs
                injection hs with hs2
                subst hs2
                rw [hparse] at hp0
                cases hp0
              · rw [List.getElem?_cons_succ, List.getElem?_nil] at hj
                cases hj
            | true =>
              simp only [hfn] at hj ⊢
              by_cases hcont : headerGet resp0.headers HeaderContinuation ≠ ""
              · simp only [hcont, if_true, if_pos hcont] at hj ⊢
                cases hb : GoClient.NewHTTPRequest c (continuationRequest request qbody)
                    (dates (idx + 1)) with
                | error e2 =>
                  simp only [hb] at hj ⊢
                  rcases j with _ | j
                  · rw [List.getElem?_cons_zero] at hj
                    injection hj with hj2
                    rw [← hj2] at hs
                    injection hs with hs2
                    subst hs2
                    rw [hparse] at hp0
                    cases hp0
                  · rw [List.getElem?_cons_succ, List.getElem?_nil] at hj
                    cases hj
                | ok req1 =>
                  simp only [hb] at hj ⊢
                  rcases j with _ | j
                  · rw [List.getElem?_cons_zero] at hj
                    injection hj with hj2
                    rw [← hj2] at hs
                    injection hs with hs2
                    subst hs2
                    rw [hparse] at hp0
                    cases hp0
                  · rw [List.getElem?_cons_succ] at hj
                    have ihres := ih _ qbody (idx + 1) _ j s resp e hj hs h200 hparse
                    refine ⟨ihres.1, ?_, ?_⟩
                    · simp [ihres.2.1]
                    · simp [ihres.2.2]
              · simp only [if_neg hcont] at hj ⊢
                rcases j with _ | j
                · rw [List.getElem?_cons_zero] at hj
                  injection hj with hj2
                  rw [← hj2] at hs
                  injection hs with hs2
                  subst hs2
                  rw [hparse] at hp0
                  cases hp0
                · rw [List.getElem?_cons_succ, List.getElem?_nil] at hj
                  cases hj
      · simp only [if_pos hst] at hj ⊢
        by_cases h304 : resp0.status = 304
        all_goals simp only [h304, if_true, if_false, if_pos, if_neg, ne_eq] at hj ⊢
        all_goals rcases j with _ | j
        · rw [List.getElem?_cons_zero] at hj
          injection hj with hj2
          rw [← hj2] at hs
          injection hs with hs2
          subst hs2
          exact absurd h200 hst
        · rw [List.getElem?_cons_succ, List.getElem?_nil] at hj
          cases hj
        · rw [List.getElem?_cons_zero] at hj
          injection hj with hj2
          rw [← hj2] at hs
          injection hs with hs2
          subst hs2
          exact absurd h200 hst
        · rw [List.getElem?_cons_succ, List.getElem?_nil] at hj
          cases hj

/-- C5: If any response delivered to a `Client.ListResources` run is a 200
whose body decodes to a JSON object without the caller-specified array key,
the run returns `ErrKeyNotFound`, that response is the last request issued,
and the page-consumer is never invoked for it (it ran only for the earlier
responses — no empty page is delivered). -/
theorem listResources_missing_key (c : GoClient) (key : String) (request : ClientRequest)
    (fn : Consumer) (dates : Nat → String) (script : Transport) (j : Nat) (s : ListStep)
    (resp : HResponse) (fields : List (String × JValue))
    (hj : (GoClient.ListResources c key request fn dates script).1[j]? = some s)
    (hs : s.resp = .ok resp) (h200 : resp.status = 200)
    (hbody : resp.bodyJson = .ok (.obj fields)) (hmiss : jLookup fields key = none) :
    (GoClient.ListResources c key request fn dates script).2.2 = some .keyNotFound ∧
    (GoClient.ListResources c key request fn dates script).1.length = j + 1 ∧
    (GoClient.ListResources c key request fn dates script).2.1.length = j := by
  have hparse : ParseArrayFromResponse resp.bodyJson key = .error .keyNotFound := by
    rw [hbody]
    exact parseArrayFromResponse_missing_key fields key hmiss
  by_cases h0 : goToUpper request.method = ""
  · simp only [GoClient.ListResources, h0, if_true] at hj ⊢
    cases hb : GoClient.NewHTTPRequest c { request with method := "GET" } (dates 0) with
    | error e =>
      simp only [hb] at hj
      rw [List.getElem?_nil] at hj
      cases hj
    | ok req1 =>
      simp only [hb] at hj ⊢
      exact listLoop_parse_error_stops c key fn dates script _ none 0 req1 j s resp
        .keyNotFound hj hs h200 hparse
  · by_cases hp : goToUpper request.method = "POST"
    · have hb1 : ("POST" = "") = False := by simp
      have hb2 : ("POST" = "POST") = True := by simp
      simp only [GoClient.ListResources, hp, hb1, hb2, if_true, if_false] at hj ⊢
      cases hrb : ClientRequest.readEntireBody { request with method := "POST" } with
      | error e =>
        simp only [hrb] at hj
        rw [List.getElem?_nil] at hj
        cases hj
      | ok data =>
        simp only [hrb] at hj ⊢
        cases hopt : request.options with
        | none =>
          simp only [hopt] at hj ⊢
          cases hb : GoClient.NewHTTPRequest c
              { request with method := "POST",
                             options := some fun h => requestIsQuery (requestIsQuery h) }
              (dates 0) with
          | error e =>
            simp only [hb] at hj
            rw [List.getElem?_nil] at hj
            cases hj
          | ok req1 =>
            simp only [hb] at hj ⊢
            exact listLoop_parse_error_stops c key fn dates script _ data 0 req1 j s resp
              .keyNotFound hj hs h200 hparse
        | some f =>
          simp only [hopt] at hj ⊢
          cases hb : GoClient.NewHTTPRequest c
              { request with method := "POST",
                             options := some fun h => requestIsQuery (f h) }
              (dates 0) with
          | error e =>
            simp only [hb] at hj
            rw [List.getElem?_nil] at hj
            cases hj
          | ok req1 =>
            simp only [hb] at hj ⊢
            exact listLoop_parse_error_stops c key fn dates script _ data 0 req1 j s resp
              .keyNotFound hj hs h200 hparse
    · simp only [GoClient.ListResources] at hj
      rw [if_neg h0, if_neg hp] at hj
      rw [List.getElem?_nil] at hj
      cases hj

/-- Closed witness for C5: a single 200 response whose object body lacks the
requested `"Documents"` key. -/
theorem listResources_missing_key_witness :
    (GoClient.ListResources {} "Documents" {} (fun _ _ _ => (true, none)) (fun _ => "d")
        [.ok { status := 200, headers := [],
               bodyJson := .ok (.obj [("Offers", .arr [])]) }]).2.2 =
      some .keyNotFound ∧
    (GoClient.ListResources {} "Documents" {} (fun _ _ _ => (true, none)) (fun _ => "d")
        [.ok { status := 200, headers := [],
               bodyJson := .ok (.obj [("Offers", .arr [])]) }]).1.length = 0 + 1 ∧
    (GoClient.ListResources {} "Documents" {} (fun _ _ _ => (true, none)) (fun _ => "d")
        [.ok { status := 200, headers := [],
               bodyJson := .ok (.obj [("Offers", .arr [])]) }]).2.1.length = 0 :=
  listResources_missing_key {} "Documents" {} (fun _ _ _ => (true, none)) (fun _ => "d")
    [.ok { status := 200, headers := [],
           bodyJson := .ok (.obj [("Offers", .arr [])]) }]
    0
    ⟨{ method := "GET", url := "/", headers := [("User-Agent", "Go-Interstellar/0.1")],
       body := none, getBody := none },
     .ok { status := 200, headers := [], bodyJson := .ok (.obj [("Offers", .arr [])]) }⟩
    { status := 200, headers := [], bodyJson := .ok (.obj [("Offers", .arr [])]) }
    [("Offers", .arr [])] rfl rfl rfl rfl rfl

theorem listLoop_head (c : GoClient) (key : String) (fn : Consumer) (dates : Nat → String)
    (script : Transport) (request : ClientRequest) (qbody : Option String) (idx : Nat)
    (req : HRequest) :
    ∃ dr steps2, (listLoop c request qbody key fn dates idx req script).1 = ⟨req, dr⟩ :: steps2 := by
  cases script with
  | nil => exact ⟨_, _, rfl⟩
  | cons dr rest =>
    rw [listLoop_cons]
    cases dr with
    | error e => exact ⟨_, _, rfl⟩
    | ok resp =>
      dsimp only
      repeat' split
      all_goals exact ⟨_, _, rfl⟩

theorem listLoop_continuation_headers (c : GoClient) (key : String) (fn : Consumer)
    (dates : Nat → String) :
    ∀ (script : Transport) (request : ClientRequest) (qbody : Option String)
      (idx : Nat) (req : HRequest) (j : Nat) (s1 s2 : ListStep),
    (listLoop c request qbody key fn dates idx req script).1[j]? = some s1 →
    (listLoop c request qbody key fn dates idx req script).1[j + 1]? = some s2 →
    ∃ resp, s1.resp = .ok resp ∧
      headerGet s2.req.headers HeaderContinuation = headerGet resp.headers HeaderContinuation ∧
      headerGet s2.req.headers HeaderSessionToken = headerGet resp.headers HeaderSessionToken := by
  intro script
  induction script with
  | nil =>
    intro request qbody idx req j s1 s2 hj1 hj2
    simp only [listLoop] at hj2
    rw [List.getElem?_cons_succ, List.getElem?_nil] at hj2
    cases hj2
  | cons dr rest ih =>
    intro request qbody idx req j s1 s2 hj1 hj2
    rw [listLoop_cons] at hj1 hj2
    cases dr with
    | error e =>
      rw [List.getElem?_cons_succ, List.getElem?_nil] at hj2
      cases hj2
    | ok resp0 =>
      by_cases hst : resp0.status = 200
      · have hne : ¬(resp0.status ≠ 200) := by simp [hst]
        simp only [if_neg hne] at hj1 hj2
        cases hp0 : ParseArrayFromResponse resp0.bodyJson key with
        | error e0 =>
          simp only [hp0] at hj1 hj2
          rw [List.getElem?_cons_succ, List.getElem?_nil] at hj2
          cases hj2
        | ok results =>
          simp only [hp0] at hj1 hj2
          rcases hfn : fn idx results (GetResponseMetadata resp0) with ⟨ok1, err1⟩
          cases err1 with
          | some emsg =>
            simp only [hfn] at hj1 hj2
            rw [List.getElem?_cons_succ, List.getElem?_nil] at hj2
            cases hj2
          | none =>
            cases ok1 with
            | false =>
              simp only [hfn] at hj1 hj2
              rw [List.getElem?_cons_succ, List.getElem?_nil] at hj2
              cases hj2
            | true =>
              simp only [hfn] at hj1 hj2
              by_cases hcont : headerGet resp0.headers HeaderContinuation ≠ ""
              · simp only [if_pos hcont] at hj1 hj2
                cases hb : GoClient.NewHTTPRequest c (continuationRequest request qbody)
                    (dates (idx + 1)) with
                | error e2 =>
                  simp only [hb] at hj1 hj2
                  rw [List.getElem?_cons_succ, List.getElem?_nil] at hj2
                  cases hj2
                | ok req1 =>
                  simp only [hb] at hj1 hj2
                  rcases j with _ | j
                  · rw [List.getElem?_cons_zero] at hj1
                    injection hj1 with hj1e
                    rw [List.getElem?_cons_succ] at hj2
                    obtain ⟨dr2, steps2, hX⟩ := listLoop_head c key fn dates rest
                      (continuationRequest request qbody) qbody (idx + 1) _
                    rw [hX, List.getElem?_cons_zero] at hj2
                    injection hj2 with hj2e
                    refine ⟨resp0, by rw [← hj1e], ?_, ?_⟩
                    · rw [← hj2e]
                      rw [headerGet_set_self]
                      rfl
                    · rw [← hj2e]
                      rw [headerGet_set_other _ _ _ _ (by decide), headerGet_set_self]
                      rfl
                  · rw [List.getElem?_cons_succ] at hj1 hj2
                    exact ih _ qbody (idx + 1) _ j s1 s2 hj1 hj2
              · simp only [if_neg hcont] at hj2
                rw [List.getElem?_cons_succ, List.getElem?_nil] at hj2
                cases hj2
      · simp only [if_pos hst] at hj2
        by_cases h304 : resp0.status = 304
        · simp only [if_pos h304] at hj2
          rw [List.getElem?_cons_succ, List.getElem?_nil] at hj2
          cases hj2
        · simp only [if_neg h304] at hj2
          rw [List.getElem?_cons_succ, List.getElem?_nil] at hj2
          cases hj2

/-- C9: In every `Client.ListResources` run, whenever a request is re-issued
for a continuation, the `x-ms-continuation` value set on it (taken from the
metadata of the preceding response) equals the continuation header read
directly from that same response to decide the loop, and the
`x-ms-session-token` set on it equals that response's session-token header —
the metadata copy and the direct header read can never diverge. -/
theorem listResources_continuation_session_consistent (c : GoClient) (key : String)
    (request : ClientRequest) (fn : Consumer) (dates : Nat → String) (script : Transport)
    (j : Nat) (s1 s2 : ListStep)
    (hj1 : (GoClient.ListResources c key request fn dates script).1[j]? = some s1)
    (hj2 : (GoClient.ListResources c key request fn dates script).1[j + 1]? = some s2) :
    ∃ resp, s1.resp = .ok resp ∧
      headerGet s2.req.headers HeaderContinuation = headerGet resp.headers HeaderContinuation ∧
      headerGet s2.req.headers HeaderSessionToken = headerGet resp.headers HeaderSessionToken := by
  by_cases h0 : goToUpper request.method = ""
  · simp only [GoClient.ListResources, h0, if_true] at hj1 hj2
    cases hb : GoClient.NewHTTPRequest c { request with method := "GET" } (dates 0) with
    | error e =>
      simp only [hb] at hj1
      rw [List.getElem?_nil] at hj1
      cases hj1
    | ok req1 =>
      simp only [hb] at hj1 hj2
      exact listLoop_continuation_headers c key fn dates script _ none 0 req1 j s1 s2 hj1 hj2
  · by_cases hp : goToUpper request.method = "POST"
    · have hb1 : ("POST" = "") = False := by simp
      have hb2 : ("POST" = "POST") = True := by simp
      simp only [GoClient.ListResources, hp, hb1, hb2, if_true, if_false] at hj1 hj2
      cases hrb : ClientRequest.readEntireBody { request with method := "POST" } with
      | error e =>
        simp only [hrb] at hj1
        rw [List.getElem?_nil] at hj1
        cases hj1
      | ok data =>
        simp only [hrb] at hj1 hj2
        cases hopt : request.options with
        | none =>
          simp only [hopt] at hj1 hj2
          cases hb : GoClient.NewHTTPRequest c
              { request with method := "POST",
                             options := some fun h => requestIsQuery (requestIsQuery h) }
              (dates 0) with
          | error e =>
            simp only [hb] at hj1
            rw [List.getElem?_nil] at hj1
            cases hj1
          | ok req1 =>
            simp only [hb] at hj1 hj2
            exact listLoop_continuation_headers c key fn dates script _ data 0 req1 j s1 s2 hj1 hj2
        | some f =>
          simp only [hopt] at hj1 hj2
          cases hb : GoClient.NewHTTPRequest c
              { request with method := "POST",
                             options := some fun h => requestIsQuery (f h) }
              (dates 0) with
          | error e =>
            simp only [hb] at hj1
            rw [List.getElem?_nil] at hj1
            cases hj1
          | ok req1 =>
            simp only [hb] at hj1 hj2
            exact listLoop_continuation_headers c key fn dates script _ data 0 req1 j s1 s2 hj1 hj2
    · simp only [GoClient.ListResources] at hj1
      rw [if_neg h0, if_neg hp] at hj1
      rw [List.getElem?_nil] at hj1
      cases hj1

/-- Closed witness for C9: a two-page run; the second request carries exactly
the first response's continuation token and session token. -/
theorem listResources_continuation_session_consistent_witness :
    ∃ resp,
      (⟨{ method := "GET", url := "/", headers := [("User-Agent", "Go-Interstellar/0.1")],
          body := none, getBody := none },
        .ok { status := 200,
              headers := [("x-ms-continuation", "tok"), ("x-ms-session-token", "sess")],
              bodyRaw := "", bodyJson := .ok (.obj [("Documents", .arr [])]) }⟩ :
        ListStep).resp = .ok resp ∧
      headerGet ({ method := "GET", url := "/",
                   headers := [("x-ms-continuation", "tok"), ("x-ms-session-token", "sess"),
                               ("User-Agent", "Go-Interstellar/0.1")],
                   body := none, getBody := none } : HRequest).headers HeaderContinuation =
        headerGet resp.headers HeaderContinuation ∧
      headerGet ({ method := "GET", url := "/",
                   headers := [("x-ms-continuation", "tok"), ("x-ms-session-token", "sess"),
                               ("User-Agent", "Go-Interstellar/0.1")],
                   body := none, getBody := none } : HRequest).headers HeaderSessionToken =
        headerGet resp.headers HeaderSessionToken := by
  have h := listResources_continuation_session_consistent {} "Documents" {}
    (fun _ _ _ => (true, none)) (fun _ => "d")
    [.ok { status := 200,
           headers := [("x-ms-continuation", "tok"), ("x-ms-session-token", "sess")],
           bodyJson := .ok (.obj [("Documents", .arr [])]) },
     .ok { status := 200, headers := [],
           bodyJson := .ok (.obj [("Documents", .arr [])]) }]
    0 _ _ rfl rfl
  exact h
